import Mathlib

/-!
# Verification of the otto build orchestrator (`main.go`)

A shallow embedding of the orchestration engine of `otto`: the
configuration model (profiles × packages), the blacklist-aware merge of
configure arguments, environment composition, archive-format inference,
source-root location after extraction, the resume/skip traversal of the
package list, the concurrency flag handed to the build tool, and the
working-directory discipline of the per-package pipeline.

Go `map[string]string` values are modelled as association lists in some
enumeration order; filesystem and subprocess effects are modelled by the
data that flows into them (argument vectors, environment vectors,
directory listings, stage outcomes). `log.Fatal` calls `os.Exit`, which
terminates the process without running deferred functions; a run-aborting
event is modelled by the `PipelineAbort` type below.
-/

namespace Otto

/-- `Package` (main.go lines 35-41). `Configure` and `ConfigureBlacklist`
are the package-level configure arguments and the blacklist prefix list. -/
structure Package where
  Name : String
  Sources : String
  Format : String
  Configure : List String
  ConfigureBlacklist : List String
deriving DecidableEq

/-- `Profile` (main.go lines 29-33). The Go `map[string]string` field `Env`
is modelled as an association list in some enumeration order (Go map
iteration order is unspecified; none of the theorems depend on it). -/
structure Profile where
  Name : String
  Env : List (String × String)
  Configure : List String
deriving DecidableEq

/-- `Blacklist` (main.go lines 43-45). -/
structure Blacklist where
  Prefixes : List String
deriving DecidableEq

/-- `strings.HasPrefix(s, p)` (Go standard library): `s` starts with `p`,
modelled over the character lists of the two strings. -/
def goHasPfx (s p : String) : Bool := p.data.isPrefixOf s.data

/-- `Blacklist.Has` (main.go lines 47-54): true when the candidate string
starts with any listed prefix (`strings.HasPrefix(s, p)`). -/
def Blacklist.Has (bl : Blacklist) (s : String) : Bool :=
  bl.Prefixes.any (fun p => goHasPfx s p)

/-- `filepath.Join` on two components, as used at main.go lines 99-100,
134, 153 and 214. -/
def filepathJoin (a b : String) : String := a ++ "/" ++ b

/-- The kingpin target for the `--concurrency` flag (main.go line 62):
`String()` allocates a fresh Go string, which holds the zero value `""`
until `app.Parse` assigns it. -/
structure FlagState where
  concurrencyLevel : String
deriving DecidableEq

/-- State of the flag target at program start, before `app.Parse`. -/
def initFlagState : FlagState := ⟨""⟩

/-- `app.Parse` (main.go line 68): stores the user-supplied concurrency
level into the flag target, or the declared default `"2"` when the flag
is absent from the command line. -/
def parseFlags (userLevel : Option String) (_s : FlagState) : FlagState :=
  ⟨userLevel.getD "2"⟩

/-- main.go lines 66-68: `makeConcurrencyFlag := "-j" + (*concurrencyLevelArg)`
is evaluated on line 66, BEFORE `app.Parse` on line 68 assigns the flag
target, so it reads the target's pre-parse value. -/
def makeConcurrencyFlag (userLevel : Option String) : String :=
  let s0 := initFlagState
  let flag := "-j" ++ s0.concurrencyLevel
  let _s1 := parseFlags userLevel s0
  flag

/-- Argument vector of the Building stage invocation
`command("make", env, makeConcurrencyFlag)` (main.go line 250). -/
def buildStageArgs (userLevel : Option String) : List String :=
  [makeConcurrencyFlag userLevel]

/-- `strings.Contains` over the character lists: the needle `sub` occurs
as a contiguous run inside the haystack. -/
def charsContain (sub : List Char) : List Char → Bool
  | [] => sub.isEmpty
  | c :: cs => sub.isPrefixOf (c :: cs) || charsContain sub cs

/-- `strings.Contains(s, sub)` (Go standard library). -/
def stringsContains (s sub : String) : Bool := charsContain sub.data s.data

/-- A run-aborting event inside the per-package pipeline: either a
`log.Fatal` call with a diagnostic message, or a Go runtime nil-pointer
dereference panic. Both terminate the whole process (deferred functions
do not run after `os.Exit`). -/
inductive PipelineAbort where
  | fatalLog (msg : String)
  | nilDeref
deriving DecidableEq

/-- Whether an abort is a defined `log.Fatal`-style diagnostic (as opposed
to a runtime nil-pointer panic). -/
def PipelineAbort.isFatalLog : PipelineAbort → Bool
  | .fatalLog _ => true
  | .nilDeref => false

/-- main.go lines 142-151: resolve the archive format. An explicit
`pkg.Format` is used unchanged; otherwise the source URL is probed for
`.tar.xz`, then `.tar.gz`; if neither substring occurs the run aborts
via `log.Fatal`. -/
def resolveFormat (pkg : Package) : Except PipelineAbort String :=
  let format := pkg.Format
  if format == "" then
    if stringsContains pkg.Sources ".tar.xz" then Except.ok "tar.xz"
    else if stringsContains pkg.Sources ".tar.gz" then Except.ok "tar.gz"
    else Except.error (PipelineAbort.fatalLog
      ("Could not figure out format of " ++ pkg.Sources ++ " please specify explicitly"))
  else Except.ok format

/-- One entry of the directory listing `ioutil.ReadDir(pkgSrc)` returns
(main.go line 196): a name and whether it is a directory. -/
structure DirEntry where
  name : String
  isDir : Bool
deriving DecidableEq

/-- main.go lines 201-207: `var dir os.FileInfo` stays nil unless the loop
finds a directory entry (`if f.IsDir() { dir = f; break }`). -/
def firstDirEntry : List DirEntry → Option DirEntry
  | [] => none
  | f :: fs => if f.isDir then some f else firstDirEntry fs

/-- main.go lines 201-214: locate the extracted source root as
`filepath.Join(pkgSrc, dir.Name())`. When the listing holds no directory
entry, `dir` is a nil `os.FileInfo` and `dir.Name()` panics with a
nil-pointer dereference, aborting the run. -/
def locateSrcDir (pkgSrc : String) (files : List DirEntry) : Except PipelineAbort String :=
  match firstDirEntry files with
  | some d => Except.ok (filepathJoin pkgSrc d.name)
  | none => Except.error PipelineAbort.nilDeref

/-- main.go lines 128-132: the environment vector, built by appending
`fmt.Sprintf("%s=%s", k, v)` for each profile `Env` entry (in map
enumeration order) and then the synthesized `PREFIX=<prefix>` entry. -/
def makeEnv (profileEnv : List (String × String)) (pfx : String) : List String :=
  let env := profileEnv.foldl (fun acc kv => acc ++ [kv.1 ++ "=" ++ kv.2]) ([] : List String)
  env ++ ["PREFIX=" ++ pfx]

/-- The environment entry a subprocess observes for `key`: `os/exec`
deduplicates `cmd.Env`, keeping for each key only the LAST entry in the
slice, so scan from the back for the last entry starting `key ++ "="`. -/
def lastEnvEntry (key : String) : List String → Option String
  | [] => none
  | e :: rest =>
    match lastEnvEntry key rest with
    | some v => some v
    | none => if goHasPfx e (key ++ "=") then some e else none

/-- main.go lines 224-239: the configure argument vector, built by append:
`"--prefix="+prefix`, then every profile-level argument not matching the
package's blacklist, then every package-level argument not matching the
package's blacklist, each in declared order. -/
def configureArgs (profile : Profile) (pkg : Package) (pfx : String) : List String :=
  let args : List String := []
  let args := args ++ ["--prefix=" ++ pfx]
  let bl : Blacklist := ⟨pkg.ConfigureBlacklist⟩
  let args := profile.Configure.foldl
    (fun acc arg => if !(bl.Has arg) then acc ++ [arg] else acc) args
  let args := pkg.Configure.foldl
    (fun acc arg => if !(bl.Has arg) then acc ++ [arg] else acc) args
  args

/-- main.go lines 117-124: the package loop's skip logic. `skipping` is
first cleared when the package name equals the resume name (so that
package itself is built); a package reached while `skipping` is still
true is skipped with no side effects. Returns the packages the pipeline
actually runs for, in order. -/
def resumeLoop (resume : String) : Bool → List Package → List Package
  | _, [] => []
  | skipping, p :: rest =>
    let skipping' := if p.Name == resume then false else skipping
    if skipping' then resumeLoop resume skipping' rest
    else p :: resumeLoop resume skipping' rest

/-- main.go lines 112-124: `skipping` is seeded true exactly when the
resume name is non-empty, then the package loop runs. -/
def builtPackages (resume : String) (pkgs : List Package) : List Package :=
  resumeLoop resume (resume != "") pkgs

/-- Process-wide state the pipeline mutates: the current working
directory (`os.Chdir` / `os.Getwd`). -/
structure Proc where
  cwd : String
deriving DecidableEq

/-- Exit status of one external command (`command(...)`, main.go 279-288). -/
inductive StageOutcome where
  | ok
  | failed
deriving DecidableEq

/-- main.go lines 209-261: the per-package closure. It records
`baseWd := os.Getwd()`, enters `srcDir` with `os.Chdir`, and registers
`defer os.Chdir(baseWd)`. A failing configure/build/install stage hits
`log.Fatal`, i.e. `os.Exit(1)`: the process dies and the deferred chdir
does NOT run — but control also never returns to the orchestration loop
(`none`). On the success path the deferred chdir restores `baseWd` before
the closure returns (`some`). -/
def packageClosure (srcDir : String) (cfg bld ins : StageOutcome)
    (s : Proc) : Option Proc :=
  let baseWd := s.cwd
  let s1 : Proc := ⟨srcDir⟩
  match cfg with
  | .failed => none
  | .ok =>
    match bld with
    | .failed => none
    | .ok =>
      match ins with
      | .failed => none
      | .ok => some { s1 with cwd := baseWd }

/-- Concrete packages used to instantiate the resume/skip theorems. -/
def pkgA : Package := ⟨"zlib", "http://x/zlib-1.2.11.tar.gz", "", [], []⟩

def pkgB : Package := ⟨"openssl", "http://x/openssl-1.1.tar.gz", "", [], []⟩

def pkgC : Package := ⟨"curl", "http://x/curl-7.61.tar.xz", "", [], []⟩

/-! ## Helper lemmas -/

theorem isPfxOf_self_append : ∀ (l m : List Char), l.isPrefixOf (l ++ m) = true
  | [], _ => by simp [List.isPrefixOf]
  | c :: cs, m => by simp [List.isPrefixOf, isPfxOf_self_append cs m]

theorem goHasPfx_self_append (p s : String) : goHasPfx (p ++ s) p = true := by
  simp only [goHasPfx, String.data_append]
  exact isPfxOf_self_append p.data s.data

theorem goHasPfx_empty (s : String) : goHasPfx s "" = true := by
  simp [goHasPfx, List.isPrefixOf]

theorem foldl_append_filter (f : String → Bool) :
    ∀ (l acc : List String),
      l.foldl (fun acc arg => if f arg then acc ++ [arg] else acc) acc = acc ++ l.filter f
  | [], acc => by simp
  | x :: xs, acc => by
    cases hfx : f x with
    | true => simp [hfx, foldl_append_filter f xs (acc ++ [x])]
    | false => simp [hfx, foldl_append_filter f xs acc]

theorem foldl_append_map {α : Type} (g : α → String) :
    ∀ (l : List α) (acc : List String),
      l.foldl (fun acc kv => acc ++ [g kv]) acc = acc ++ l.map g
  | [], acc => by simp
  | x :: xs, acc => by simp [foldl_append_map g xs (acc ++ [g x])]

/-- The configure vector in closed form: the synthesized `--prefix` entry,
then the profile arguments surviving the package blacklist, then the
package arguments surviving the package blacklist. -/
theorem configureArgs_spec (profile : Profile) (pkg : Package) (pfx : String) :
    configureArgs profile pkg pfx =
      ("--prefix=" ++ pfx) ::
        (profile.Configure.filter (fun a => !((Blacklist.mk pkg.ConfigureBlacklist).Has a)) ++
         pkg.Configure.filter (fun a => !((Blacklist.mk pkg.ConfigureBlacklist).Has a))) := by
  simp only [configureArgs]
  rw [foldl_append_filter, foldl_append_filter]
  simp

theorem resumeLoop_skipping_false (r : String) (l : List Package) :
    resumeLoop r false l = l := by
  induction l with
  | nil => rfl
  | cons p rest ih => simp [resumeLoop, ih]

theorem resumeLoop_true_skip (r : String) (p : Package) (rest : List Package)
    (h : p.Name ≠ r) : resumeLoop r true (p :: rest) = resumeLoop r true rest := by
  have hb : (p.Name == r) = false := by simpa using h
  simp [resumeLoop, hb]

theorem resumeLoop_true_resume (r : String) :
    ∀ (before after : List Package) (pk : Package), pk.Name = r →
      (∀ p ∈ before, p.Name ≠ r) →
      resumeLoop r true (before ++ pk :: after) = pk :: after
  | [], after, pk, hpk, _ => by
    have h1 : (pk.Name == r) = true := by simpa using hpk
    simp [resumeLoop, h1, resumeLoop_skipping_false]
  | q :: qs, after, pk, hpk, hb => by
    rw [List.cons_append, resumeLoop_true_skip r q _ (hb q (by simp))]
    exact resumeLoop_true_resume r qs after pk hpk (fun p hp => hb p (by simp [hp]))

theorem resumeLoop_true_none (r : String) :
    ∀ (l : List Package), (∀ p ∈ l, p.Name ≠ r) → resumeLoop r true l = []
  | [], _ => rfl
  | q :: qs, hb => by
    rw [resumeLoop_true_skip r q qs (hb q (by simp))]
    exact resumeLoop_true_none r qs (fun p hp => hb p (by simp [hp]))

theorem firstDirEntry_eq_none :
    ∀ (files : List DirEntry), (∀ f ∈ files, f.isDir = false) →
      firstDirEntry files = none
  | [], _ => rfl
  | f :: fs, h => by
    have hf : f.isDir = false := h f (by simp)
    simp only [firstDirEntry, hf, Bool.false_eq_true, if_false]
    exact firstDirEntry_eq_none fs (fun g hg => h g (by simp [hg]))

theorem lastEnvEntry_append_last (key e : String)
    (he : goHasPfx e (key ++ "=") = true) :
    ∀ (l : List String), lastEnvEntry key (l ++ [e]) = some e
  | [] => by simp [lastEnvEntry, he]
  | x :: xs => by
    have ih := lastEnvEntry_append_last key e he xs
    simp only [List.cons_append, lastEnvEntry, List.append_eq]
    rw [ih]

/-! ## Claim theorems -/

/-- C1: the claim says the Building stage passes `"-j" ++ <level>` (so
`"-j2"` at the default level 2). The code computes `makeConcurrencyFlag`
on main.go line 66, before `app.Parse` (line 68) stores the level into
the kingpin target, so the build tool is always invoked with the bare
argument `"-j"`, even though the parsed level is `"2"`. -/
theorem buildStage_flag_is_bare_dash_j :
    buildStageArgs none = ["-j"] ∧ buildStageArgs (some "2") = ["-j"] ∧
    (parseFlags none initFlagState).concurrencyLevel = "2" ∧
    ("-j" : String) ≠ "-j2" :=
  ⟨rfl, rfl, rfl, by decide⟩

/-- C2 counterexample: the package `libfoo` declares the configure argument
`"--enable-lto"`, which starts with its own blacklist entry `"--enable-"`;
contrary to the claim, that argument does NOT appear in the final
configure vector — the code (main.go lines 235-239) filters package
arguments through the package's own blacklist too. -/
theorem pkg_arg_blacklisted_counterexample :
    "--enable-lto" ∈ (Package.mk "libfoo" "http://x/libfoo.tar.gz" ""
      ["--enable-lto"] ["--enable-"]).Configure ∧
    Blacklist.Has ⟨["--enable-"]⟩ "--enable-lto" = true ∧
    "--enable-lto" ∉ configureArgs ⟨"static", [], []⟩
      (Package.mk "libfoo" "http://x/libfoo.tar.gz" "" ["--enable-lto"] ["--enable-"]) "/p" := by
  refine ⟨by decide, by decide, by decide⟩

/-- C2 (amended): a package-declared configure argument appears in the
package's final configure argument vector whenever it does not start with
any of the package's own blacklist prefixes; package arguments matching a
blacklist prefix are filtered out exactly like profile arguments. -/
theorem pkg_arg_unblacklisted_appears (profile : Profile) (pkg : Package)
    (pfx a : String) (hmem : a ∈ pkg.Configure)
    (hbl : Blacklist.Has ⟨pkg.ConfigureBlacklist⟩ a = false) :
    a ∈ configureArgs profile pkg pfx := by
  rw [configureArgs_spec]
  exact List.mem_cons_of_mem _
    (List.mem_append_right _ (List.mem_filter.2 ⟨hmem, by simp [hbl]⟩))

theorem pkg_arg_unblacklisted_appears_witness :
    "--static" ∈ configureArgs ⟨"default", [], ["--disable-shared"]⟩
      (Package.mk "zlib" "http://x/zlib-1.2.11.tar.gz" "" ["--static"] ["--enable-"])
      "/out/default" :=
  pkg_arg_unblacklisted_appears _ _ _ _ (by decide) (by decide)

/-- C3 counterexample: with a listing holding only the downloaded archive
file (zero top-level directories), the pipeline aborts via the
nil-pointer dereference on `dir.Name()` (main.go line 214), which is not
a defined `ExtractionLayoutError`-style `log.Fatal` diagnostic. -/
theorem locate_zero_dirs_counterexample :
    locateSrcDir "/out/src/default/zlib" [⟨"zlib.tar.gz", false⟩] =
      Except.error PipelineAbort.nilDeref ∧
    PipelineAbort.isFatalLog PipelineAbort.nilDeref = false :=
  ⟨rfl, rfl⟩

/-- C3 (amended): when extraction produces zero top-level directory
entries, the run aborts deterministically — via a nil-pointer dereference
panic when computing the source root, not via a defined
`ExtractionLayoutError`-style fatal error — and never proceeds with an
undefined source root. -/
theorem locate_zero_dirs_aborts (pkgSrc : String) (files : List DirEntry)
    (h : ∀ f ∈ files, f.isDir = false) :
    locateSrcDir pkgSrc files = Except.error PipelineAbort.nilDeref := by
  unfold locateSrcDir
  rw [firstDirEntry_eq_none files h]

theorem locate_zero_dirs_aborts_witness :
    locateSrcDir "/out/src/default/zlib"
      [DirEntry.mk "zlib.tar.gz" false, DirEntry.mk "README" false] =
      Except.error PipelineAbort.nilDeref :=
  locate_zero_dirs_aborts _ _ (by decide)

/-- C4 counterexample: under the claim the vector for this input would be
`["--prefix=/out/default", "--disable-shared", "--static"]` (package
arguments unfiltered), but the code filters `"--static"` out through the
package's own blacklist prefix `"--st"`. -/
theorem configure_vector_counterexample :
    configureArgs ⟨"default", [], ["--disable-shared"]⟩
        (Package.mk "zlib" "http://x/zlib-1.2.11.tar.gz" "" ["--static"] ["--st"])
        "/out/default" =
      ["--prefix=/out/default", "--disable-shared"] ∧
    (["--prefix=/out/default", "--disable-shared"] : List String) ≠
      ["--prefix=/out/default", "--disable-shared", "--static"] := by
  refine ⟨by decide, by decide⟩

/-- C4 (amended): the final configure argument vector begins with exactly
one synthesized `"--prefix=" ++ installPfx` entry, followed by the
profile's configure arguments that survive the package blacklist filter
in declared order, followed by the package's configure arguments that
survive the same blacklist filter, in declared order. -/
theorem configure_vector_order (profile : Profile) (pkg : Package) (pfx : String) :
    configureArgs profile pkg pfx =
      ("--prefix=" ++ pfx) ::
        (profile.Configure.filter (fun a => !((Blacklist.mk pkg.ConfigureBlacklist).Has a)) ++
         pkg.Configure.filter (fun a => !((Blacklist.mk pkg.ConfigureBlacklist).Has a))) :=
  configureArgs_spec profile pkg pfx

/-- C5 counterexample: a source URL containing BOTH substrings infers
`tar.xz`, because the code (main.go lines 144-147) probes `.tar.xz`
first; the claim's "a URL containing `.tar.gz` infers tar.gz" fails. -/
theorem format_inference_counterexample :
    stringsContains "http://x/gnarly.tar.xz.tar.gz" ".tar.gz" = true ∧
    resolveFormat (Package.mk "gnarly" "http://x/gnarly.tar.xz.tar.gz" "" [] []) =
      Except.ok "tar.xz" ∧
    ("tar.xz" : String) ≠ "tar.gz" := by
  refine ⟨by decide, rfl, by decide⟩

/-- C5 (amended): an explicit format is used unchanged; otherwise a URL
containing `.tar.xz` infers `tar.xz`, a URL containing `.tar.gz` but not
`.tar.xz` infers `tar.gz` (`.tar.xz` takes precedence when both occur),
and a URL containing neither substring is a fatal configuration error. -/
theorem format_inference_spec (pkg : Package) :
    (pkg.Format ≠ "" → resolveFormat pkg = Except.ok pkg.Format) ∧
    (pkg.Format = "" → stringsContains pkg.Sources ".tar.xz" = true →
      resolveFormat pkg = Except.ok "tar.xz") ∧
    (pkg.Format = "" → stringsContains pkg.Sources ".tar.xz" = false →
      stringsContains pkg.Sources ".tar.gz" = true →
      resolveFormat pkg = Except.ok "tar.gz") ∧
    (pkg.Format = "" → stringsContains pkg.Sources ".tar.xz" = false →
      stringsContains pkg.Sources ".tar.gz" = false →
      resolveFormat pkg = Except.error (PipelineAbort.fatalLog
        ("Could not figure out format of " ++ pkg.Sources ++
          " please specify explicitly"))) := by
  refine ⟨?_, ?_, ?_, ?_⟩
  · intro h
    simp [resolveFormat, h]
  · intro h hx
    simp [resolveFormat, h, hx]
  · intro h hx hg
    simp [resolveFormat, h, hx, hg]
  · intro h hx hg
    simp [resolveFormat, h, hx, hg]

theorem format_inference_spec_witness :
    resolveFormat (Package.mk "zlib" "http://x/zlib-1.2.11.tar.gz" "" [] []) =
      Except.ok "tar.gz" ∧
    resolveFormat (Package.mk "xz" "http://x/xz-5.2.tar.xz" "" [] []) =
      Except.ok "tar.xz" ∧
    resolveFormat (Package.mk "odd" "http://x/odd.zip" "tar.gz" [] []) =
      Except.ok "tar.gz" :=
  ⟨(format_inference_spec _).2.2.1 rfl (by decide) (by decide),
   (format_inference_spec _).2.1 rfl (by decide),
   (format_inference_spec _).1 (by decide)⟩

/-- C6: with a non-empty resume name `r` naming a package in the list,
every package strictly before the first occurrence of `r` is skipped and
the named package itself plus every package after it are built, in the
original declared order (the resume point is inclusive). -/
theorem resume_inclusive (r : String) (hr : r ≠ "")
    (before after : List Package) (pk : Package) (hpk : pk.Name = r)
    (hb : ∀ p ∈ before, p.Name ≠ r) :
    builtPackages r (before ++ pk :: after) = pk :: after := by
  unfold builtPackages
  have hrt : (r != "") = true := by simpa using hr
  rw [hrt]
  exact resumeLoop_true_resume r before after pk hpk hb

theorem resume_inclusive_witness :
    builtPackages "openssl" [pkgA, pkgB, pkgC] = [pkgB, pkgC] :=
  resume_inclusive "openssl" (by decide) [pkgA] [pkgC] pkgB rfl (by decide)

/-- C7: a non-empty resume name matching no package in the list makes the
run skip every package — `skipping` never flips to false, so no pipeline
stage runs for any package. -/
theorem resume_no_match_skips_all (r : String) (hr : r ≠ "")
    (pkgs : List Package) (h : ∀ p ∈ pkgs, p.Name ≠ r) :
    builtPackages r pkgs = [] := by
  unfold builtPackages
  have hrt : (r != "") = true := by simpa using hr
  rw [hrt]
  exact resumeLoop_true_none r pkgs h

theorem resume_no_match_skips_all_witness :
    builtPackages "libpng" [pkgA, pkgB, pkgC] = [] :=
  resume_no_match_skips_all "libpng" (by decide) _ (by decide)

/-- C8: the composed environment vector is the profile's entries (in
enumeration order) followed by the synthesized `PREFIX` entry, and since
`os/exec` keeps the last entry for a duplicated key, the value a
subprocess observes for `PREFIX` is always the computed install prefix,
even when the profile's `Env` map also declares a `PREFIX` key. -/
theorem prefix_env_entry_wins (profileEnv : List (String × String)) (pfx : String) :
    makeEnv profileEnv pfx =
      (profileEnv.map (fun kv => kv.1 ++ "=" ++ kv.2)) ++ ["PREFIX=" ++ pfx] ∧
    lastEnvEntry "PREFIX" (makeEnv profileEnv pfx) = some ("PREFIX=" ++ pfx) := by
  have h1 : makeEnv profileEnv pfx =
      (profileEnv.map (fun kv => kv.1 ++ "=" ++ kv.2)) ++ ["PREFIX=" ++ pfx] := by
    simp only [makeEnv]
    rw [foldl_append_map]
    simp
  refine ⟨h1, ?_⟩
  rw [h1]
  have hkey : ("PREFIX" ++ "=" : String) = "PREFIX=" := rfl
  have he : goHasPfx ("PREFIX=" ++ pfx) ("PREFIX" ++ "=") = true := by
    rw [hkey]; exact goHasPfx_self_append "PREFIX=" pfx
  exact lastEnvEntry_append_last "PREFIX" _ he _

/-- C9: whenever the per-package closure returns control to the
orchestration loop (it only does so when configure, build and install all
succeed; a failing stage hits `log.Fatal`, i.e. `os.Exit`, and the
process dies), the working directory has been restored to its value at
entry, so a later package never starts in a prior package's source root. -/
theorem pipeline_restores_cwd (srcDir : String) (cfg bld ins : StageOutcome)
    (s s' : Proc) (h : packageClosure srcDir cfg bld ins s = some s') :
    s'.cwd = s.cwd := by
  cases cfg with
  | failed => simp [packageClosure] at h
  | ok =>
    cases bld with
    | failed => simp [packageClosure] at h
    | ok =>
      cases ins with
      | failed => simp [packageClosure] at h
      | ok =>
        simp only [packageClosure] at h
        injection h with h
        rw [← h]

theorem pipeline_restores_cwd_witness :
    packageClosure "/out/src/default/zlib/zlib-1.2.11" StageOutcome.ok
        StageOutcome.ok StageOutcome.ok (Proc.mk "/home/user") =
      some (Proc.mk "/home/user") ∧
    (Proc.mk "/home/user").cwd = (Proc.mk "/home/user").cwd :=
  ⟨rfl, pipeline_restores_cwd "/out/src/default/zlib/zlib-1.2.11" StageOutcome.ok
    StageOutcome.ok StageOutcome.ok (Proc.mk "/home/user") (Proc.mk "/home/user") rfl⟩

/-- C10: an empty string among a package's blacklist prefixes makes
`Blacklist.Has` true for every candidate (every string has the empty
prefix), so no profile-level configure argument survives into the
package's configure vector — it collapses to the `--prefix` entry alone. -/
theorem empty_blacklist_blocks_profile_args (profile : Profile) (pkg : Package)
    (pfx : String) (h : "" ∈ pkg.ConfigureBlacklist) :
    (∀ s, Blacklist.Has ⟨pkg.ConfigureBlacklist⟩ s = true) ∧
    configureArgs profile pkg pfx = ["--prefix=" ++ pfx] := by
  have hall : ∀ s, Blacklist.Has ⟨pkg.ConfigureBlacklist⟩ s = true := by
    intro s
    exact List.any_eq_true.2 ⟨"", h, goHasPfx_empty s⟩
  refine ⟨hall, ?_⟩
  rw [configureArgs_spec]
  have hnil : ∀ (l : List String),
      l.filter (fun a => !((Blacklist.mk pkg.ConfigureBlacklist).Has a)) = [] := by
    intro l
    exact List.filter_eq_nil_iff.2 (fun a _ => by simp [hall a])
  rw [hnil, hnil]
  rfl

theorem empty_blacklist_blocks_profile_args_witness :
    configureArgs ⟨"weird", [], ["--with-x", "--enable-y"]⟩
      (Package.mk "bar" "http://x/bar.tar.xz" "" ["--own-flag"] [""]) "/p" =
      ["--prefix=/p"] :=
  (empty_blacklist_blocks_profile_args ⟨"weird", [], ["--with-x", "--enable-y"]⟩
    (Package.mk "bar" "http://x/bar.tar.xz" "" ["--own-flag"] [""]) "/p" (by decide)).2

end Otto
